import Mathlib

/-!
Verification of the ingestion and normalization pipeline of the
Dashboard-Shopee repository: the `useGoogleSheet` hook (header
normalization, carrier-status reconciliation, record coercion, ingestion
state updates) and the server-side `/api/sheet` proxy endpoint.

Rows produced by the CSV parser are modelled as association lists from
header-key strings to value strings, looked up first-match-first (JS
object keys are unique, so first-match lookup coincides with JS property
access; the JS reordering of integer-like keys in `Object.keys` is not
modelled, as no header normalizes to an integer-like key in any claim).
JS numbers reached through `Number(string)` are modelled exactly as
rationals extended with NaN and signed infinities; float64 rounding is
not modelled (it never changes the NaN/zero/sign classification the
claims are about, except for literals beyond the double range, which no
claim exercises).
-/

/-- The set of characters matched by the JS regexp class backslash-s and
removed by `String.prototype.trim` (WhiteSpace and LineTerminator). -/
def isJsWs (c : Char) : Bool :=
  c = ' ' || c = '\t' || c = '\n' || c = '\r' || c = '\x0b' || c = '\x0c' ||
  c = ' ' || c = ' ' || (' ' ≤ c && c ≤ ' ') ||
  c = ' ' || c = ' ' || c = ' ' || c = ' ' ||
  c = '　' || c = '﻿'

/-- JS `String.prototype.trim`: remove leading and trailing whitespace. -/
def jsTrimList (l : List Char) : List Char :=
  ((l.dropWhile isJsWs).reverse.dropWhile isJsWs).reverse

/-- JS `String.prototype.trimStart`: remove leading whitespace only. -/
def jsTrimStartList (l : List Char) : List Char :=
  l.dropWhile isJsWs

/-- JS `String.prototype.toLowerCase`, modelled on the basic-latin range
(`Char.toLower`); every header and marker in the claims is ASCII. -/
def jsToLowerList (l : List Char) : List Char :=
  l.map Char.toLower

/-- Worker for `collapseWs`: the flag records whether the previous
character belonged to a whitespace run whose underscore was emitted. -/
def collapseGo : Bool → List Char → List Char
  | _, [] => []
  | inRun, c :: cs =>
    if isJsWs c then
      (if inRun then [] else ['_']) ++ collapseGo true cs
    else c :: collapseGo false cs

/-- JS `replace(re-whitespace-run, underscore)`: each maximal run of
whitespace characters is replaced by a single underscore. -/
def collapseWs (l : List Char) : List Char :=
  collapseGo false l

/-- `transformHeader` from `useGoogleSheet`: *header.trim().toLowerCase()
.replace(re-whitespace-runs, underscore)*. -/
def transformHeader (h : String) : String :=
  String.mk (collapseWs (jsToLowerList (jsTrimList h.data)))

theorem toLower_idem (c : Char) :
    Char.toLower (Char.toLower c) = Char.toLower c := by
  by_cases h : 65 ≤ c.toNat ∧ c.toNat ≤ 90
  · obtain ⟨h1, h2⟩ := h
    rw [show c = Char.ofNat c.toNat from (Char.ofNat_toNat c).symm]
    revert h1 h2
    generalize c.toNat = n
    intro h1 h2
    interval_cases n <;> decide
  · have hc : Char.toLower c = c := by
      unfold Char.toLower
      simp only [ge_iff_le]
      rw [if_neg h]
    rw [hc, hc]

theorem dropWhile_eq_self_of_not (p : Char → Bool) (l : List Char)
    (h : ∀ c ∈ l, p c = false) : l.dropWhile p = l := by
  cases l with
  | nil => rfl
  | cons c cs =>
    have hc : ¬ p c = true := by
      rw [h c (List.mem_cons_self c cs)]; simp
    exact List.dropWhile_cons_of_neg hc

theorem jsTrimList_eq_self (l : List Char)
    (h : ∀ c ∈ l, isJsWs c = false) : jsTrimList l = l := by
  unfold jsTrimList
  rw [dropWhile_eq_self_of_not _ _ h]
  rw [dropWhile_eq_self_of_not _ _ (by intro c hc; exact h c (List.mem_reverse.mp hc))]
  exact l.reverse_reverse

theorem collapseGo_mem (l : List Char) :
    ∀ b, ∀ c ∈ collapseGo b l, isJsWs c = false ∧ (c = '_' ∨ c ∈ l) := by
  induction l with
  | nil => intro b c hc; simp [collapseGo] at hc
  | cons a cs ih =>
    intro b c hc
    rw [collapseGo] at hc
    by_cases hws : isJsWs a
    · rw [if_pos hws] at hc
      rcases List.mem_append.mp hc with h | h
      · have hund : c = '_' := by
          cases b
          · simpa using h
          · simp at h
        subst hund
        exact ⟨by decide, Or.inl rfl⟩
      · obtain ⟨h1, h2⟩ := ih true c h
        exact ⟨h1, h2.imp id (List.mem_cons_of_mem a)⟩
    · rw [if_neg hws] at hc
      rcases List.mem_cons.mp hc with h | h
      · subst h
        exact ⟨by simpa using hws, Or.inr (List.mem_cons_self c cs)⟩
      · obtain ⟨h1, h2⟩ := ih false c h
        exact ⟨h1, h2.imp id (List.mem_cons_of_mem a)⟩

theorem collapseGo_eq_self (l : List Char) (b : Bool)
    (h : ∀ c ∈ l, isJsWs c = false) : collapseGo b l = l := by
  induction l generalizing b with
  | nil => rfl
  | cons a cs ih =>
    rw [collapseGo]
    have ha : isJsWs a = false := h a (List.mem_cons_self a cs)
    rw [if_neg (by simp [ha])]
    rw [ih false (fun c hc => h c (List.mem_cons_of_mem a hc))]

theorem jsToLowerList_eq_self (l : List Char)
    (h : ∀ c ∈ l, Char.toLower c = c) : jsToLowerList l = l := by
  unfold jsToLowerList
  induction l with
  | nil => rfl
  | cons c cs ih =>
    rw [List.map_cons, h c (List.mem_cons_self c cs),
      ih (fun x hx => h x (List.mem_cons_of_mem c hx))]

theorem transformHeader_chars (h : String) :
    ∀ c ∈ (transformHeader h).data,
      isJsWs c = false ∧ Char.toLower c = c := by
  intro c hc
  have hc' : c ∈ collapseGo false (jsToLowerList (jsTrimList h.data)) := hc
  obtain ⟨h1, h2⟩ := collapseGo_mem _ false c hc'
  refine ⟨h1, ?_⟩
  rcases h2 with h2 | h2
  · subst h2; decide
  · obtain ⟨d, _, hd⟩ := List.mem_map.mp h2
    rw [← hd]
    exact toLower_idem d

/-- C7. Header normalization (trim, lower-case, collapse whitespace runs
to single underscores) is idempotent: normalizing an already-normalized
header yields the same string. -/
theorem transformHeader_idem (h : String) :
    transformHeader (transformHeader h) = transformHeader h := by
  have hch := transformHeader_chars h
  have hws : ∀ c ∈ (transformHeader h).data, isJsWs c = false :=
    fun c hc => (hch c hc).1
  conv_lhs => rw [transformHeader]
  rw [jsTrimList_eq_self _ hws]
  rw [jsToLowerList_eq_self _ (fun c hc => (hch c hc).2)]
  rw [show collapseWs (transformHeader h).data = collapseGo false (transformHeader h).data from rfl]
  rw [collapseGo_eq_self _ false hws]

/-- JS numbers as needed by `Number(string) || 0`: exact rationals
extended with NaN and the signed infinities. -/
inductive JSNum
  | nan
  | inf
  | neginf
  | num (q : ℚ)
deriving DecidableEq, Repr

/-- JS truthiness of a number: everything except NaN and zero. -/
def JSNum.truthy : JSNum → Bool
  | .nan => false
  | .num q => q != 0
  | _ => true

/-- JS unary minus on a number. -/
def JSNum.neg : JSNum → JSNum
  | .nan => .nan
  | .inf => .neginf
  | .neginf => .inf
  | .num q => .num (-q)

/-- JS `x || 0` on a number: keep truthy values, otherwise 0. -/
def jsOrZero (n : JSNum) : JSNum :=
  if n.truthy then n else .num 0

def isDigit (c : Char) : Bool := '0' ≤ c && c ≤ '9'

def isHexDigit (c : Char) : Bool :=
  isDigit c || ('a' ≤ c && c ≤ 'f') || ('A' ≤ c && c ≤ 'F')

def isOctDigit (c : Char) : Bool := '0' ≤ c && c ≤ '7'

def isBinDigit (c : Char) : Bool := c = '0' || c = '1'

def decDigitVal (c : Char) : Nat := c.toNat - 48

def hexDigitVal (c : Char) : Nat :=
  if isDigit c then c.toNat - 48
  else if 'a' ≤ c && c ≤ 'f' then c.toNat - 87
  else c.toNat - 55

def digitsToNat (base : Nat) (digVal : Char → Nat) (ds : List Char) : Nat :=
  ds.foldl (fun a c => base * a + digVal c) 0

/-- A nonempty all-digit run, as a number; `none` when malformed. -/
def parseDigits1 (t : List Char) : Option Nat :=
  if !t.isEmpty && t.all isDigit then some (digitsToNat 10 decDigitVal t)
  else none

def parseSignedExp : List Char → Option Int
  | '+' :: t => (parseDigits1 t).map (fun n => (n : Int))
  | '-' :: t => (parseDigits1 t).map (fun n => -(n : Int))
  | t => (parseDigits1 t).map (fun n => (n : Int))

def parseExpPart : List Char → Option Int
  | [] => some 0
  | 'e' :: t => parseSignedExp t
  | 'E' :: t => parseSignedExp t
  | _ => none

def decValue (ip fp : List Char) (e : Int) : ℚ :=
  ((digitsToNat 10 decDigitVal ip : ℚ)
    + (digitsToNat 10 decDigitVal fp : ℚ) / (10 : ℚ) ^ fp.length)
    * (10 : ℚ) ^ e

/-- Unsigned decimal literal of the ES ToNumber grammar: digits, an
optional dot with fraction digits, an optional exponent; at least one
digit in the integer or fraction part; the whole input consumed. -/
def parseDecLit (cs : List Char) : Option ℚ :=
  let ip := cs.takeWhile isDigit
  let r1 := cs.dropWhile isDigit
  match r1 with
  | '.' :: t =>
    let fp := t.takeWhile isDigit
    let r2 := t.dropWhile isDigit
    if ip.isEmpty && fp.isEmpty then none
    else (parseExpPart r2).map (decValue ip fp)
  | _ =>
    if ip.isEmpty then none
    else (parseExpPart r1).map (decValue ip [])

def parseRadixLit (isD : Char → Bool) (base : Nat) (digVal : Char → Nat)
    (t : List Char) : Option ℚ :=
  if !t.isEmpty && t.all isD then some ((digitsToNat base digVal t : Nat) : ℚ)
  else none

/-- The optionally signed part of the ES StrNumericLiteral grammar:
Infinity or a decimal literal. -/
def jsUnsignedNum (t : List Char) : JSNum :=
  if t = "Infinity".data then .inf
  else
    match parseDecLit t with
    | some q => .num q
    | none => .nan

def jsSigned : List Char → JSNum
  | '+' :: r => jsUnsignedNum r
  | '-' :: r => (jsUnsignedNum r).neg
  | r => jsUnsignedNum r

/-- ES ToNumber on a string, as invoked by `Number(value)` in the record
coercion: trim whitespace, the empty remainder gives 0, a hex, octal or
binary integer prefix is unsigned, otherwise an optionally signed
Infinity or decimal literal; anything else is NaN. -/
def jsNumber (s : String) : JSNum :=
  let t := jsTrimList s.data
  match t with
  | [] => .num 0
  | '0' :: x :: rest =>
    if x = 'x' ∨ x = 'X' then
      match parseRadixLit isHexDigit 16 hexDigitVal rest with
      | some q => .num q
      | none => .nan
    else if x = 'o' ∨ x = 'O' then
      match parseRadixLit isOctDigit 8 decDigitVal rest with
      | some q => .num q
      | none => .nan
    else if x = 'b' ∨ x = 'B' then
      match parseRadixLit isBinDigit 2 decDigitVal rest with
      | some q => .num q
      | none => .nan
    else jsSigned t
  | _ => jsSigned t

/-- `Number(row[k])`: a missing key is `undefined`, and
`Number(undefined)` is NaN. -/
def jsNumberOpt : Option String → JSNum
  | some s => jsNumber s
  | none => .nan

/-- A parsed CSV row: association list from normalized header keys to
cell strings, in header order. -/
abbrev Row := List (String × String)

/-- JS property access `row[k]` (`none` models `undefined`). -/
def jsGet (row : Row) (k : String) : Option String :=
  (row.find? (fun kv => kv.1 == k)).map (fun kv => kv.2)

/-- JS truthiness of the property `row[k]`: present with a value other
than the empty string. -/
def truthyAt (row : Row) (k : String) : Bool :=
  match jsGet row k with
  | some v => v != ""
  | none => false

def getS (row : Row) (k : String) : String := (jsGet row k).getD ""

def isLowerAlnum (c : Char) : Bool :=
  ('a' ≤ c && c ≤ 'z') || ('0' ≤ c && c ≤ '9')

/-- Key normalization inside the reconciliation fallback:
*k.toLowerCase().replace(re-non-alphanumeric, empty)*. -/
def normalizeKey (k : String) : String :=
  String.mk ((jsToLowerList k.data).filter isLowerAlnum)

/-- JS `String.prototype.includes`. -/
def strIncludes (s sub : String) : Bool :=
  s.data.tails.any (fun t => sub.data.isPrefixOf t)

/-- JS `Object.keys` in insertion order. -/
def rowKeys (row : Row) : List String := row.map (fun kv => kv.1)

def possibleNames : List String :=
  ["lastestspxstatus", "latestspxstatus", "spxstatus", "statusspx", "status"]

/-- Continuation of `extractSpxStatus` after the partial fuzzy match:
the first normalized key containing spx, else the empty string. -/
def spxOnlyFallback (row : Row) (nks : List (String × String)) : String :=
  match nks.find? (fun k => strIncludes k.2 "spx") with
  | some m => if truthyAt row m.1 then getS row m.1 else ""
  | none => ""

/-- Continuation of `extractSpxStatus` after the candidate-name loop:
the first normalized key containing both spx and status, then the
spx-only fallback. -/
def spxFallback (row : Row) (nks : List (String × String)) : String :=
  match nks.find? (fun k => strIncludes k.2 "spx" && strIncludes k.2 "status") with
  | some m => if truthyAt row m.1 then getS row m.1 else spxOnlyFallback row nks
  | none => spxOnlyFallback row nks

/-- The `for name of possibleNames` loop of `extractSpxStatus`: a found
candidate with a truthy value returns early, otherwise the loop
continues, and after the last candidate control falls through to the
fuzzy fallbacks. -/
def nameLoop (row : Row) (nks : List (String × String)) : List String → String
  | [] => spxFallback row nks
  | name :: rest =>
    match nks.find? (fun k => k.2 == name) with
    | some m => if truthyAt row m.1 then getS row m.1 else nameLoop row nks rest
    | none => nameLoop row nks rest

/-- `extractSpxStatus` from `useGoogleSheet`, translated clause by
clause (early returns become nested conditionals, the loop becomes
`nameLoop`). -/
def extractSpxStatus (row : Row) : String :=
  if truthyAt row "lastest_spx_status" then getS row "lastest_spx_status"
  else if truthyAt row "latest_spx_status" then getS row "latest_spx_status"
  else if truthyAt row "spx_status" then getS row "spx_status"
  else
    nameLoop row ((rowKeys row).map (fun k => (k, normalizeKey k))) possibleNames

/-- A present, non-empty value: the notion of a winning key in the
cascade as the specification words it. -/
def nonEmptyVal (o : Option String) : Option String :=
  o.bind (fun v => if v = "" then none else some v)

/-- Steps 1 to 3 of the documented cascade: the exact keys, in order. -/
def specExactSteps (row : Row) : Option String :=
  nonEmptyVal (jsGet row "lastest_spx_status") <|>
    (nonEmptyVal (jsGet row "latest_spx_status") <|>
      nonEmptyVal (jsGet row "spx_status"))

/-- Step 4 of the documented cascade: the first candidate of the ordered
list matching a normalized key with a non-empty value. -/
def specCandidateStep (row : Row) : Option String :=
  possibleNames.findSome? (fun name =>
    match (rowKeys row).find? (fun k => normalizeKey k == name) with
    | some k => nonEmptyVal (jsGet row k)
    | none => none)

/-- Step 5: the first normalized key containing both spx and status. -/
def specPartialStep (row : Row) : Option String :=
  match (rowKeys row).find? (fun k =>
      strIncludes (normalizeKey k) "spx" && strIncludes (normalizeKey k) "status") with
  | some k => nonEmptyVal (jsGet row k)
  | none => none

/-- Step 6: the first normalized key containing spx. -/
def specSpxStep (row : Row) : Option String :=
  match (rowKeys row).find? (fun k => strIncludes (normalizeKey k) "spx") with
  | some k => nonEmptyVal (jsGet row k)
  | none => none

/-- The carrier-status reconciliation cascade exactly as the
specification words it, steps 1 to 7 with first match winning. -/
def specSpxStatus (row : Row) : String :=
  ((specExactSteps row <|> specCandidateStep row) <|>
    (specPartialStep row <|> specSpxStep row)).getD ""

theorem nonEmptyVal_eq_ite (row : Row) (k : String) :
    nonEmptyVal (jsGet row k) = if truthyAt row k then some (getS row k) else none := by
  unfold nonEmptyVal truthyAt getS
  cases jsGet row k with
  | none => simp
  | some v =>
    by_cases hv : v = ""
    · subst hv; simp
    · simp [hv]

theorem find?_map_norm (keys : List String) (p : String → Bool) :
    (keys.map (fun k => (k, normalizeKey k))).find? (fun m => p m.2)
      = (keys.find? (fun k => p (normalizeKey k))).map (fun k => (k, normalizeKey k)) := by
  rw [List.find?_map]
  rfl

theorem spxOnlyFallback_eq (row : Row) :
    spxOnlyFallback row ((rowKeys row).map (fun k => (k, normalizeKey k)))
      = (specSpxStep row).getD "" := by
  unfold spxOnlyFallback specSpxStep
  rw [find?_map_norm (rowKeys row) (fun n2 => strIncludes n2 "spx")]
  cases hf : (rowKeys row).find? (fun k => strIncludes (normalizeKey k) "spx") with
  | none => simp
  | some k =>
    simp only [Option.map_some']
    rw [nonEmptyVal_eq_ite]
    by_cases ht : truthyAt row k
    · simp [ht]
    · simp [ht]

theorem spxFallback_eq (row : Row) :
    spxFallback row ((rowKeys row).map (fun k => (k, normalizeKey k)))
      = (specPartialStep row <|> specSpxStep row).getD "" := by
  unfold spxFallback specPartialStep
  rw [find?_map_norm (rowKeys row)
    (fun n2 => strIncludes n2 "spx" && strIncludes n2 "status")]
  cases hf : (rowKeys row).find? (fun k =>
      strIncludes (normalizeKey k) "spx" && strIncludes (normalizeKey k) "status") with
  | none =>
    simp only [Option.map_none', Option.none_orElse]
    exact spxOnlyFallback_eq row
  | some k =>
    simp only [Option.map_some']
    rw [nonEmptyVal_eq_ite]
    by_cases ht : truthyAt row k
    · simp [ht]
    · simp only [ht, Bool.false_eq_true, if_false, Option.none_orElse]
      exact spxOnlyFallback_eq row

theorem nameLoop_eq_findSome (row : Row) (names : List String) :
    nameLoop row ((rowKeys row).map (fun k => (k, normalizeKey k))) names
      = (names.findSome? (fun name =>
          match (rowKeys row).find? (fun k => normalizeKey k == name) with
          | some k => nonEmptyVal (jsGet row k)
          | none => none)).getD
          (spxFallback row ((rowKeys row).map (fun k => (k, normalizeKey k)))) := by
  induction names with
  | nil => rfl
  | cons name rest ih =>
    rw [nameLoop, List.findSome?_cons]
    rw [find?_map_norm (rowKeys row) (fun n2 => n2 == name)]
    cases hf : (rowKeys row).find? (fun k => normalizeKey k == name) with
    | none =>
      simp only [Option.map_none']
      exact ih
    | some k =>
      simp only [Option.map_some']
      rw [nonEmptyVal_eq_ite]
      by_cases ht : truthyAt row k
      · simp [ht]
      · simp only [ht, Bool.false_eq_true, if_false]
        exact ih

theorem extractSpxStatus_eq_spec (row : Row) :
    extractSpxStatus row = specSpxStatus row := by
  unfold extractSpxStatus specSpxStatus specExactSteps
  rw [nonEmptyVal_eq_ite row "lastest_spx_status",
    nonEmptyVal_eq_ite row "latest_spx_status",
    nonEmptyVal_eq_ite row "spx_status"]
  by_cases h1 : truthyAt row "lastest_spx_status"
  · simp [h1]
  · simp only [h1, Bool.false_eq_true, if_false, Option.none_orElse]
    by_cases h2 : truthyAt row "latest_spx_status"
    · simp [h2]
    · simp only [h2, Bool.false_eq_true, if_false, Option.none_orElse]
      by_cases h3 : truthyAt row "spx_status"
      · simp [h3]
      · simp only [h3, Bool.false_eq_true, if_false, Option.none_orElse]
        rw [nameLoop_eq_findSome row possibleNames]
        rw [show (possibleNames.findSome? (fun name =>
            match (rowKeys row).find? (fun k => normalizeKey k == name) with
            | some k => nonEmptyVal (jsGet row k)
            | none => none)) = specCandidateStep row from rfl]
        cases hc : specCandidateStep row with
        | some v => simp
        | none =>
          simp only [Option.getD_none, Option.none_orElse]
          exact spxFallback_eq row

theorem orElse_eq_some_cases (a b : Option String) (v : String)
    (h : (a <|> b) = some v) : a = some v ∨ b = some v := by
  cases a with
  | none => right; simpa using h
  | some w => left; simpa using h

theorem nonEmptyVal_source (row : Row) (k v : String)
    (h : nonEmptyVal (jsGet row k) = some v) :
    (∃ p ∈ row, p.2 = v) ∧ v ≠ "" := by
  unfold nonEmptyVal jsGet at h
  cases hf : row.find? (fun kv => kv.1 == k) with
  | none => rw [hf] at h; simp at h
  | some p =>
    rw [hf] at h
    simp only [Option.map_some', Option.some_bind] at h
    by_cases hp : p.2 = ""
    · rw [if_pos hp] at h; simp at h
    · rw [if_neg hp] at h
      injection h with h2
      subst h2
      exact ⟨⟨p, List.mem_of_find?_eq_some hf, rfl⟩, hp⟩

theorem find?_match_source (row : Row) (q : String → Bool) (v : String)
    (h : (match (rowKeys row).find? q with
          | some k => nonEmptyVal (jsGet row k)
          | none => none) = some v) :
    (∃ p ∈ row, p.2 = v) ∧ v ≠ "" := by
  cases hf : (rowKeys row).find? q with
  | none => rw [hf] at h; simp at h
  | some k =>
    rw [hf] at h
    exact nonEmptyVal_source row k v h

theorem specSpxStatus_source (row : Row) (v : String)
    (h : specSpxStatus row = v) (hv : v ≠ "") :
    ∃ p ∈ row, p.2 = v := by
  unfold specSpxStatus at h
  cases hall : ((specExactSteps row <|> specCandidateStep row) <|>
      (specPartialStep row <|> specSpxStep row)) with
  | none =>
    rw [hall] at h
    simp at h
    exact absurd h.symm hv
  | some w =>
    rw [hall] at h
    simp only [Option.getD_some] at h
    subst h
    rcases orElse_eq_some_cases _ _ _ hall with h12 | h34
    · rcases orElse_eq_some_cases _ _ _ h12 with he | hc
      · unfold specExactSteps at he
        rcases orElse_eq_some_cases _ _ _ he with ha | hbc
        · exact (nonEmptyVal_source row _ _ ha).1
        · rcases orElse_eq_some_cases _ _ _ hbc with hb | hcx
          · exact (nonEmptyVal_source row _ _ hb).1
          · exact (nonEmptyVal_source row _ _ hcx).1
      · unfold specCandidateStep at hc
        obtain ⟨name, _, hname⟩ := List.exists_of_findSome?_eq_some hc
        exact (find?_match_source row _ _ hname).1
    · rcases orElse_eq_some_cases _ _ _ h34 with hp | hs
      · unfold specPartialStep at hp
        exact (find?_match_source row _ _ hp).1
      · unfold specSpxStep at hs
        exact (find?_match_source row _ _ hs).1

/-- C1. Carrier-status reconciliation follows exactly the documented
seven-step precedence, first match winning: the three exact keys in
order, then the ordered normalized candidate list, then the fuzzy
spx-and-status and spx-only fallbacks, else the empty string; in
particular the exact key spx_status beats the near-miss key
SPX_Status__1. -/
theorem extractSpxStatus_follows_spec_cascade :
    (∀ row : Row, extractSpxStatus row = specSpxStatus row)
      ∧ extractSpxStatus
          [("spx_status", "RECEIVED"), ("SPX_Status__1", "LOST")] = "RECEIVED" := by
  constructor
  · exact extractSpxStatus_eq_spec
  · decide

/-- C8. A row whose only carrier-status-related key is the misspelled
exact key in its original capitalization, Lastest_SPX_Status, mapped to
DELIVERED, reconciles to DELIVERED (via the normalized candidate list,
since the exact lower-case keys are absent). -/
theorem extractSpxStatus_misspelled_exact_key :
    extractSpxStatus [("Lastest_SPX_Status", "DELIVERED")] = "DELIVERED" := by
  decide

/-- C10. A present key whose value is the empty string never wins at any
step of the cascade: the result is either the empty string or the
non-empty value of some key of the row; a row with an empty
lastest_spx_status and spx_status mapped to RECEIVED resolves to
RECEIVED, and a row in which every spx-related key has an empty value
resolves to the empty string. -/
theorem extractSpxStatus_empty_values_never_win :
    (∀ row : Row, extractSpxStatus row = "" ∨
      ∃ p ∈ row, p.2 = extractSpxStatus row ∧ p.2 ≠ "")
      ∧ extractSpxStatus
          [("lastest_spx_status", ""), ("spx_status", "RECEIVED")] = "RECEIVED"
      ∧ extractSpxStatus
          [("lastest_spx_status", ""), ("latest_spx_status", ""),
            ("spx_status", ""), ("some_spx_key", "")] = "" := by
  refine ⟨?_, by decide, by decide⟩
  intro row
  by_cases h : extractSpxStatus row = ""
  · exact Or.inl h
  · right
    have hs := extractSpxStatus_eq_spec row
    obtain ⟨p, hmem, hval⟩ :=
      specSpxStatus_source row (extractSpxStatus row) hs.symm h
    exact ⟨p, hmem, hval, by rw [hval]; exact h⟩

/-- One shipment record as coerced by `fetchData` and
`handleFileUpload`; numeric fields hold the JS number produced by
`Number(value) || 0`. -/
structure ShipmentRecord where
  shipment_id : String
  latest_station_name : String
  responsability : String
  days_open_in_station : JSNum
  days_open_since_rts : JSNum
  days_stuck : JSNum
  stuck_aging : String
  since_drop_aging : String
  in_station_aging : String
  latest_spx_status : String
deriving DecidableEq, Repr

/-- JS `row[k] || empty-string` for the string fields. -/
def strOrEmpty (row : Row) (k : String) : String :=
  if truthyAt row k then getS row k else ""

/-- JS `Number(row[k]) || 0` for the numeric fields. -/
def numOrZero (row : Row) (k : String) : JSNum :=
  jsOrZero (jsNumberOpt (jsGet row k))

/-- The per-row coercion map shared by `fetchData` and
`handleFileUpload` (lines 107 to 118 of the hook). -/
def coerceRow (row : Row) : ShipmentRecord :=
  { shipment_id := strOrEmpty row "shipment_id"
    latest_station_name := strOrEmpty row "latest_station_name"
    responsability := strOrEmpty row "responsability"
    days_open_in_station := numOrZero row "days_open_in_station"
    days_open_since_rts := numOrZero row "days_open_since_rts"
    days_stuck := numOrZero row "days_stuck"
    stuck_aging := strOrEmpty row "stuck_aging"
    since_drop_aging := strOrEmpty row "since_drop_aging"
    in_station_aging := strOrEmpty row "in_station_aging"
    latest_spx_status := extractSpxStatus row }

/-- Parser mode: normal, inside a quoted section, or just after a
quote character inside a quoted section (which either escapes a quote or
closes the section). -/
inductive CsvMode
  | norm
  | quoted
  | closingQ
deriving DecidableEq, Repr

/-- Character-level CSV reader modelling the Papa.parse configuration
used by the hook: default comma delimiter, default double-quote quoting
(a quote opens a quoted section only at field start, a doubled quote
inside one is an escaped quote), any of the three newline conventions
(a carriage-return line-feed pair ends one row plus one empty row, and
the empty row is dropped by the empty-line filter below, so the three
conventions coincide after filtering). Accumulates the current field and
the current row; collection of overlong rows into a parsed-extra key is
not modelled (no claim exercises it). -/
def csvRows (mode : CsvMode) (field : List Char) (rowAcc : List String) :
    List Char → List (List String)
  | [] => [rowAcc ++ [String.mk field]]
  | c :: rest =>
    match mode with
    | .quoted =>
      if c = '"' then csvRows .closingQ field rowAcc rest
      else csvRows .quoted (field ++ [c]) rowAcc rest
    | .closingQ =>
      if c = '"' then csvRows .quoted (field ++ ['"']) rowAcc rest
      else if c = ',' then csvRows .norm [] (rowAcc ++ [String.mk field]) rest
      else if c = '\n' || c = '\r' then
        (rowAcc ++ [String.mk field]) :: csvRows .norm [] [] rest
      else csvRows .norm (field ++ [c]) rowAcc rest
    | .norm =>
      if c = '"' && field.isEmpty then csvRows .quoted field rowAcc rest
      else if c = ',' then csvRows .norm [] (rowAcc ++ [String.mk field]) rest
      else if c = '\n' || c = '\r' then
        (rowAcc ++ [String.mk field]) :: csvRows .norm [] [] rest
      else csvRows .norm (field ++ [c]) rowAcc rest

/-- All rows of the CSV text, with `skipEmptyLines: true`: rows arising
from empty lines (a lone empty field) are dropped. -/
def parseCsv (text : String) : List (List String) :=
  (csvRows .norm [] [] text.data).filter (fun r => r != [""])

/-- Papa.parse with `header: true` and the `transformHeader` of the hook: the
first row gives the keys, each further row zips against them in order
(keys beyond the length of a short row are simply absent from that
row). -/
def papaRows (text : String) : List Row :=
  match parseCsv text with
  | [] => []
  | header :: dataRows =>
    dataRows.map (fun fields => (header.map transformHeader).zip fields)

/-- The full ingestion transform of `fetchData` and `handleFileUpload`:
parse with headers, then coerce every row (no row is dropped by the
coercion). -/
def parseRecords (text : String) : List ShipmentRecord :=
  (papaRows text).map coerceRow

/-- The property the specification claims of every coerced numeric
field: a finite, non-negative number. -/
def nonnegFinite : JSNum → Bool
  | .num q => decide (0 ≤ q)
  | _ => false

theorem jsOrZero_ne_nan (n : JSNum) : jsOrZero n ≠ JSNum.nan := by
  unfold jsOrZero
  cases n with
  | nan => simp [JSNum.truthy]
  | inf => simp [JSNum.truthy]
  | neginf => simp [JSNum.truthy]
  | num q =>
    by_cases hq : q = 0
    · subst hq; simp [JSNum.truthy]
    · simp [JSNum.truthy, hq]

theorem jsOrZero_of_nan : jsOrZero JSNum.nan = JSNum.num 0 := rfl

/-- C2 counterexample. The claim that coerced numeric fields are never
negative fails: the row mapping days_stuck to the string -5 coerces to
the negative number -5, because `Number(x) || 0` keeps any truthy
parsed value, negative ones included. -/
theorem coerce_days_stuck_negative :
    (coerceRow [("days_stuck", "-5")]).days_stuck = JSNum.num (-5)
      ∧ nonnegFinite ((coerceRow [("days_stuck", "-5")]).days_stuck) = false := by
  with_unfolding_all decide

/-- C2 amended. Every coerced numeric field is a number, never NaN, and
any unparsable or missing numeric input coerces to exactly 0; a
parsable negative or infinite input, however, is kept as parsed. -/
theorem coerceRow_numeric_fields :
    ∀ row : Row,
      ((coerceRow row).days_open_in_station ≠ JSNum.nan
        ∧ (coerceRow row).days_open_since_rts ≠ JSNum.nan
        ∧ (coerceRow row).days_stuck ≠ JSNum.nan)
      ∧ (jsNumberOpt (jsGet row "days_open_in_station") = JSNum.nan →
          (coerceRow row).days_open_in_station = JSNum.num 0)
      ∧ (jsNumberOpt (jsGet row "days_open_since_rts") = JSNum.nan →
          (coerceRow row).days_open_since_rts = JSNum.num 0)
      ∧ (jsNumberOpt (jsGet row "days_stuck") = JSNum.nan →
          (coerceRow row).days_stuck = JSNum.num 0) := by
  intro row
  refine ⟨⟨jsOrZero_ne_nan _, jsOrZero_ne_nan _, jsOrZero_ne_nan _⟩, ?_, ?_, ?_⟩
  all_goals
    intro hnan
    show jsOrZero (jsNumberOpt (jsGet row _)) = JSNum.num 0
    rw [hnan, jsOrZero_of_nan]

theorem coerceRow_numeric_fields_witness :
    jsNumberOpt (jsGet [("days_stuck", "abc")] "days_stuck") = JSNum.nan
      ∧ (coerceRow [("days_stuck", "abc")]).days_stuck = JSNum.num 0 :=
  ⟨by decide,
    (coerceRow_numeric_fields [("days_stuck", "abc")]).2.2.2 (by decide)⟩

/-- C3. The two-line scenario: the CSV text with headers Shipment ID and
Days Stuck and rows A1,7 and A2, parses to exactly two coerced records
in source order, with normalized keys shipment_id and days_stuck, the
first with days_stuck 7, the second with days_stuck coerced to 0; no row
is dropped. -/
theorem parseRecords_two_row_scenario :
    parseRecords "Shipment ID,Days Stuck\nA1,7\nA2,\n"
      = [ { shipment_id := "A1", latest_station_name := "", responsability := ""
            days_open_in_station := .num 0, days_open_since_rts := .num 0
            days_stuck := .num 7, stuck_aging := "", since_drop_aging := ""
            in_station_aging := "", latest_spx_status := "" },
          { shipment_id := "A2", latest_station_name := "", responsability := ""
            days_open_in_station := .num 0, days_open_since_rts := .num 0
            days_stuck := .num 0, stuck_aging := "", since_drop_aging := ""
            in_station_aging := "", latest_spx_status := "" } ] := by
  with_unfolding_all decide

/-- The three state variables of the `useGoogleSheet` hook. -/
structure DashState where
  data : List ShipmentRecord
  loading : Bool
  error : Option String
deriving DecidableEq, Repr

/-- The message thrown by `fetchData` when the body sniffs as HTML. -/
def privateSheetMsg : String :=
  "Received HTML instead of CSV. The Google Sheet might be private. Please publish it to the web (File > Share > Publish to web)."

/-- The HTML body sniff of `fetchData`:
*csvText.trim().toLowerCase().startsWith* on either marker. -/
def htmlSniff (csvText : String) : Bool :=
  "<!doctype html>".data.isPrefixOf (jsToLowerList (jsTrimList csvText.data))
    || "<html".data.isPrefixOf (jsToLowerList (jsTrimList csvText.data))

/-- The observable outcome of the awaited fetch inside `fetchData`,
including the Papa error callback. -/
inductive FetchOutcome
  | ok (body : String)
  | httpError (status : Nat)
  | networkFailure (message : String) (isTypeError : Bool)
  | parserError (message : String)
deriving DecidableEq, Repr

/-- The catch handler of `fetchData`: a message containing Failed to
fetch, or a TypeError, is presumed to be a cross-origin restriction. -/
def catchMsg (message : String) (isTypeError : Bool) : String :=
  if strIncludes message "Failed to fetch" || isTypeError then "CORS_ERROR"
  else if message = "" then "Failed to fetch data"
  else message

/-- One full run of `fetchData` from a state, given the outcome of the
fetch: loading is set and the error cleared on entry, then either the
data is replaced wholesale by the parsed records, or one of the failure
paths records an error message and leaves the data untouched. -/
def ingest (st : DashState) (o : FetchOutcome) : DashState :=
  match o with
  | .ok body =>
    if htmlSniff body then
      { st with
        loading := false
        error := some (catchMsg privateSheetMsg false) }
    else
      { data := parseRecords body, loading := false, error := none }
  | .httpError status =>
    { st with
      loading := false
      error := some (catchMsg ("HTTP error! status: " ++ toString status) false) }
  | .networkFailure message isTypeError =>
    { st with
      loading := false
      error := some (catchMsg message isTypeError) }
  | .parserError message =>
    { st with
      loading := false
      error := some (if message = "" then "Failed to parse CSV data" else message) }

/-- The observable outcome of the Papa file parse inside
`handleFileUpload`. -/
inductive FileOutcome
  | content (text : String)
  | readError (message : String)
deriving DecidableEq, Repr

/-- One full run of `handleFileUpload`: the file contents parse through
the identical Papa configuration and coercion, or the file reader
reports an error and the data is left untouched. -/
def ingestFile (st : DashState) (o : FileOutcome) : DashState :=
  match o with
  | .content text =>
    { data := parseRecords text, loading := false, error := none }
  | .readError message =>
    { st with
      loading := false
      error := some (if message = "" then "Failed to parse CSV file" else message) }

/-- The failing outcomes of `fetchData`: non-success HTTP status, HTML
body sniff, network failure, or parser error. -/
def FetchOutcome.fails : FetchOutcome → Bool
  | .ok body => htmlSniff body
  | _ => true

/-- The claim-side HTML marker test: after trimming leading whitespace
only, the body begins case-insensitively with one of the two markers. -/
def beginsHtmlMarker (body : String) : Bool :=
  "<!doctype html>".data.isPrefixOf (jsToLowerList (jsTrimStartList body.data))
    || "<html".data.isPrefixOf (jsToLowerList (jsTrimStartList body.data))

theorem isJsWs_toLower (c : Char) : isJsWs (Char.toLower c) = isJsWs c := by
  by_cases h : 65 ≤ c.toNat ∧ c.toNat ≤ 90
  · obtain ⟨h1, h2⟩ := h
    have hlow : Char.toLower c = Char.ofNat (c.toNat + 32) := by
      unfold Char.toLower
      rw [if_pos (by omega)]
    rw [hlow]
    rw [show c = Char.ofNat c.toNat from (Char.ofNat_toNat c).symm]
    rw [show (Char.ofNat c.toNat).toNat + 32 = c.toNat + 32 from by
      rw [Char.ofNat_toNat]]
    revert h1 h2
    generalize c.toNat = n
    intro h1 h2
    interval_cases n <;> decide
  · have hc : Char.toLower c = c := by
      unfold Char.toLower
      simp only [ge_iff_le]
      rw [if_neg h]
    rw [hc]

theorem isJsWs_comp_toLower : isJsWs ∘ Char.toLower = isJsWs :=
  funext isJsWs_toLower

theorem toLower_dropWhile (l : List Char) :
    jsToLowerList (l.dropWhile isJsWs) = (jsToLowerList l).dropWhile isJsWs := by
  unfold jsToLowerList
  rw [List.dropWhile_map, isJsWs_comp_toLower]

theorem toLower_trim_comm (l : List Char) :
    jsToLowerList (jsTrimList l)
      = ((jsToLowerList (jsTrimStartList l)).reverse.dropWhile isJsWs).reverse := by
  unfold jsTrimList jsTrimStartList
  rw [show jsToLowerList (((l.dropWhile isJsWs).reverse.dropWhile isJsWs).reverse)
      = ((jsToLowerList ((l.dropWhile isJsWs).reverse.dropWhile isJsWs))).reverse from by
    unfold jsToLowerList; rw [List.map_reverse]]
  rw [toLower_dropWhile]
  rw [show jsToLowerList (l.dropWhile isJsWs).reverse
      = (jsToLowerList (l.dropWhile isJsWs)).reverse from by
    unfold jsToLowerList; rw [List.map_reverse]]

theorem prefix_rdrop (q : List Char) (c : Char) (l : List Char)
    (hc : isJsWs c = false) (h : (q ++ [c]) <+: l) :
    (q ++ [c]) <+: (l.reverse.dropWhile isJsWs).reverse := by
  obtain ⟨r, rfl⟩ := h
  rw [List.reverse_append, List.reverse_append]
  rw [List.dropWhile_append]
  by_cases he : (r.reverse.dropWhile isJsWs).isEmpty
  · rw [if_pos he]
    rw [show [c].reverse ++ q.reverse = c :: q.reverse from by simp]
    rw [List.dropWhile_cons_of_neg (by simp [hc])]
    rw [show (c :: q.reverse).reverse = q ++ [c] from by simp]
  · rw [if_neg he]
    rw [List.reverse_append]
    rw [show ([c].reverse ++ q.reverse).reverse = q ++ [c] from by simp]
    exact List.prefix_append _ _

theorem beginsHtmlMarker_sniff (body : String)
    (h : beginsHtmlMarker body = true) : htmlSniff body = true := by
  unfold beginsHtmlMarker at h
  unfold htmlSniff
  rw [toLower_trim_comm]
  rcases Bool.or_eq_true_iff.mp h with h1 | h1
  · apply Bool.or_eq_true_iff.mpr
    left
    rw [List.isPrefixOf_iff_prefix] at h1 ⊢
    exact prefix_rdrop "<!doctype html".data '>'
      (jsToLowerList (jsTrimStartList body.data)) (by decide) h1
  · apply Bool.or_eq_true_iff.mpr
    right
    rw [List.isPrefixOf_iff_prefix] at h1 ⊢
    exact prefix_rdrop "<htm".data 'l'
      (jsToLowerList (jsTrimStartList body.data)) (by decide) h1

/-- C4. A fetched body that, after trimming leading whitespace, begins
case-insensitively with an HTML document marker (either variant, any
casing) is reclassified as the private-sheet error: the error becomes
the private-sheet message and the held data is untouched, so the body
is never turned into records. -/
theorem html_body_reclassified_private_sheet :
    ∀ (st : DashState) (body : String), beginsHtmlMarker body = true →
      (ingest st (.ok body)).error = some privateSheetMsg
        ∧ (ingest st (.ok body)).data = st.data := by
  intro st body h
  have hs := beginsHtmlMarker_sniff body h
  simp only [ingest]
  rw [if_pos hs]
  refine ⟨?_, rfl⟩
  show some (catchMsg privateSheetMsg false) = some privateSheetMsg
  decide

theorem html_body_reclassified_private_sheet_witness :
    beginsHtmlMarker "  <!DoCtYpE hTmL><p>x</p>" = true
      ∧ (ingest ⟨[], true, none⟩ (.ok "  <!DoCtYpE hTmL><p>x</p>")).error
          = some privateSheetMsg
      ∧ (ingest ⟨[], true, none⟩ (.ok "  <!DoCtYpE hTmL><p>x</p>")).data = [] :=
  ⟨by decide,
    (html_body_reclassified_private_sheet ⟨[], true, none⟩ _ (by decide)).1,
    (html_body_reclassified_private_sheet ⟨[], true, none⟩ _ (by decide)).2⟩

/-- C5. Every successful ingestion replaces the dataset wholesale with
the records parsed from the input of that ingestion alone, independently of
the previous state, for both the network path and the file-upload path;
in particular, after two successive successful ingestions with disjoint
record sets the dataset is exactly the second set with no residual
record from the first. -/
theorem successful_ingestion_replaces_dataset :
    (∀ (st : DashState) (body : String), htmlSniff body = false →
        ingest st (.ok body) = ⟨parseRecords body, false, none⟩)
      ∧ (∀ (st : DashState) (text : String),
          ingestFile st (.content text) = ⟨parseRecords text, false, none⟩)
      ∧ (ingest (ingest ⟨[], true, none⟩ (.ok "Shipment ID\nA1\nA2\n"))
            (.ok "Shipment ID\nB1\nB2\n")).data
          = parseRecords "Shipment ID\nB1\nB2\n"
      ∧ ∀ r ∈ parseRecords "Shipment ID\nA1\nA2\n",
          r ∉ (ingest (ingest ⟨[], true, none⟩ (.ok "Shipment ID\nA1\nA2\n"))
            (.ok "Shipment ID\nB1\nB2\n")).data := by
  refine ⟨?_, ?_, ?_, ?_⟩
  · intro st body h
    simp only [ingest]
    rw [if_neg (by simp [h])]
  · intro st text
    rfl
  · with_unfolding_all decide
  · with_unfolding_all decide

theorem successful_ingestion_replaces_dataset_witness :
    htmlSniff "Shipment ID\nW1\n" = false
      ∧ ingest ⟨[], true, none⟩ (.ok "Shipment ID\nW1\n")
          = ⟨parseRecords "Shipment ID\nW1\n", false, none⟩ :=
  ⟨by decide,
    successful_ingestion_replaces_dataset.1 ⟨[], true, none⟩ _ (by decide)⟩

/-- C6. Every failing ingestion (non-success HTTP status, HTML body
sniff, network failure, or parser error) leaves the held dataset
exactly as it was before the ingestion, updating only the loading and
error fields, so a transient failure never blanks a previously
successful dataset. -/
theorem failing_ingestion_preserves_dataset :
    ∀ (st : DashState) (o : FetchOutcome), o.fails = true →
      (ingest st o).data = st.data
        ∧ (ingest st o).loading = false
        ∧ (ingest st o).error.isSome = true := by
  intro st o hf
  cases o with
  | ok body =>
    have hs : htmlSniff body = true := hf
    simp only [ingest]
    rw [if_pos hs]
    exact ⟨rfl, rfl, rfl⟩
  | httpError status => exact ⟨rfl, rfl, rfl⟩
  | networkFailure m t => exact ⟨rfl, rfl, rfl⟩
  | parserError m => exact ⟨rfl, rfl, rfl⟩

theorem failing_ingestion_preserves_dataset_witness :
    FetchOutcome.fails (.httpError 500) = true
      ∧ (ingest ⟨parseRecords "Shipment ID\nA1\n", false, none⟩
          (.httpError 500)).data = parseRecords "Shipment ID\nA1\n" :=
  ⟨by decide,
    (failing_ingestion_preserves_dataset
      ⟨parseRecords "Shipment ID\nA1\n", false, none⟩
      (.httpError 500) (by decide)).1⟩

/-- The upstream response observed by the proxy handler. -/
structure UpstreamResponse where
  status : Nat
  statusText : String
  body : String
deriving DecidableEq, Repr

/-- `response.ok` of the Fetch API: status in the range 200 to 299. -/
def respOk (r : UpstreamResponse) : Bool :=
  200 ≤ r.status && r.status ≤ 299

/-- What the proxy handler sends back: an HTTP status and a body. -/
structure ProxyResponse where
  status : Nat
  body : String
deriving DecidableEq, Repr

/-- The `/api/sheet` handler of the dev server, given the two query
parameters (an absent or empty string parameter is JS-falsy) and the
result of the server-side fetch (`none` models a thrown network error):
missing parameters give 400, an upstream non-ok status is propagated
verbatim with a failure text, a network error gives 500, and otherwise
the raw CSV body is sent with the default 200 status. -/
def sheetHandler (sheetId tabName : Option String)
    (fetched : Option UpstreamResponse) : ProxyResponse :=
  if sheetId.getD "" = "" ∨ tabName.getD "" = "" then
    ⟨400, "\x7b\"error\":\"Missing sheetId or tabName\"\x7d"⟩
  else
    match fetched with
    | none => ⟨500, "\x7b\"error\":\"Failed to fetch from Google Sheets\"\x7d"⟩
    | some r =>
      if !(respOk r) then
        ⟨r.status, "Failed to fetch from Google Sheets: " ++ r.statusText⟩
      else ⟨200, r.body⟩

/-- C9. With both query parameters present and non-empty, the proxy
propagates an upstream non-success HTTP status as its own response
status, and on upstream success responds with the raw CSV body under
the default 200 status. -/
theorem proxy_propagates_status_and_body :
    ∀ (sid tab : String) (r : UpstreamResponse), sid ≠ "" → tab ≠ "" →
      (respOk r = false →
        (sheetHandler (some sid) (some tab) (some r)).status = r.status)
      ∧ (respOk r = true →
        sheetHandler (some sid) (some tab) (some r) = ⟨200, r.body⟩) := by
  intro sid tab r hsid htab
  unfold sheetHandler
  rw [if_neg (by simp [hsid, htab])]
  constructor
  · intro hok
    simp [hok]
  · intro hok
    simp [hok]

theorem proxy_propagates_status_and_body_witness :
    (sheetHandler (some "sheet1") (some "tab1")
        (some ⟨503, "Service Unavailable", ""⟩)).status = 503
      ∧ sheetHandler (some "sheet1") (some "tab1")
          (some ⟨200, "OK", "a,b\n1,2\n"⟩) = ⟨200, "a,b\n1,2\n"⟩ :=
  ⟨(proxy_propagates_status_and_body "sheet1" "tab1"
      ⟨503, "Service Unavailable", ""⟩ (by decide) (by decide)).1 (by decide),
    (proxy_propagates_status_and_body "sheet1" "tab1"
      ⟨200, "OK", "a,b\n1,2\n"⟩ (by decide) (by decide)).2 (by decide)⟩

theorem extractSpxStatus_follows_spec_cascade_witness :
    extractSpxStatus [("SPX Status", "IN_TRANSIT")]
      = specSpxStatus [("SPX Status", "IN_TRANSIT")] :=
  extractSpxStatus_follows_spec_cascade.1 [("SPX Status", "IN_TRANSIT")]

theorem transformHeader_idem_witness :
    transformHeader (transformHeader "Days Open  In Station")
      = transformHeader "Days Open  In Station" :=
  transformHeader_idem "Days Open  In Station"

theorem extractSpxStatus_empty_values_never_win_witness :
    extractSpxStatus [("note", "x")] = "" ∨
      ∃ p ∈ ([("note", "x")] : Row),
        p.2 = extractSpxStatus [("note", "x")] ∧ p.2 ≠ "" :=
  extractSpxStatus_empty_values_never_win.1 [("note", "x")]
